import Mathlib

/-!
Shallow embedding of the corpus-cleaner repository (src/corpus_cleaner) and
proofs about its record-cleaning engine and three-phase pipeline.

Python strings are modelled as `List Char`; Python floats and their ratio
thresholds are modelled as exact rationals (`ℚ`); none of the statements
proved here sit on a float-rounding boundary.  External collaborators that
the code only consumes through a narrow contract (BeautifulSoup's markup
parse, `math.exp`, the KenLM scorer, the neural perplexity model) are
modelled as explicit oracle parameters, so every theorem quantifying over
them holds in particular for the real backends.
-/

set_option maxRecDepth 10000

abbrev Text := List Char

/-- Python `str.isspace` / `re`'s `\s` character set (Unicode whitespace). -/
def isPySpace (c : Char) : Bool :=
  c = ' ' ∨ c = '\t' ∨ c = '\n' ∨ c = '\r' ∨ c = '\x0b' ∨ c = '\x0c' ∨
  c = '\x1c' ∨ c = '\x1d' ∨ c = '\x1e' ∨ c = '\x1f' ∨ c = '\x85' ∨
  c = '\xa0' ∨ c = ' ' ∨ (0x2000 ≤ c.toNat ∧ c.toNat ≤ 0x200a) ∨
  c = ' ' ∨ c = ' ' ∨ c = ' ' ∨ c = ' ' ∨ c = '　'

/-- Python `str.strip()`: drop whitespace from both ends. -/
def pyStrip (t : Text) : Text :=
  ((t.dropWhile isPySpace).reverse.dropWhile isPySpace).reverse

/-- Worker for `collapseWs`; the flag records whether we are inside a
whitespace run whose single space has already been emitted. -/
def collapseWsGo : Bool → Text → Text
  | _, [] => []
  | inRun, c :: rest =>
    if isPySpace c then
      if inRun then collapseWsGo true rest else ' ' :: collapseWsGo true rest
    else c :: collapseWsGo false rest

/-- Embeds `re.sub(r'\s+', ' ', ·)`: each maximal whitespace run becomes one space. -/
def collapseWs (t : Text) : Text := collapseWsGo false t

/-- The deduplication fingerprint: `re.sub(r'\s+', ' ', text.strip())`
(`_check_duplicate`, cleaner.py). -/
def fingerprint (t : Text) : Text := collapseWs (pyStrip t)

/-- Worker for `reFindallPlus`; the accumulator holds the pending run in
reverse. -/
def reFindallGo (p : Char → Bool) : Text → Text → List Text
  | pend, [] => if pend = [] then [] else [pend.reverse]
  | pend, c :: rest =>
    if p c then reFindallGo p (c :: pend) rest
    else if pend = [] then reFindallGo p [] rest
    else pend.reverse :: reFindallGo p [] rest

/-- Embeds `re.findall` for a pattern of shape `[class]+`: the maximal runs of
characters satisfying `p`, in order. -/
def reFindallPlus (p : Char → Bool) (t : Text) : List Text :=
  reFindallGo p [] t

/-- Number of maximal runs of characters satisfying `p`, computed by counting
run starts in a single pass (used to restate what `reFindallPlus` counts). -/
def countRunsGo (p : Char → Bool) : Bool → Text → Nat
  | _, [] => 0
  | inRun, c :: rest =>
    if p c then (if inRun then 0 else 1) + countRunsGo p true rest
    else countRunsGo p false rest

def countRuns (p : Char → Bool) (t : Text) : Nat := countRunsGo p false t

/-- Embeds `len(text.split())` in Python: the number of maximal non-whitespace runs. -/
def pyWords (t : Text) : Nat := (reFindallPlus (fun c => !isPySpace c) t).length

/-- Embeds `text.split('\n')`. -/
def splitOnNl : Text → List Text
  | [] => [[]]
  | c :: rest =>
    if c = '\n' then [] :: splitOnNl rest
    else
      match splitOnNl rest with
      | l :: ls => (c :: l) :: ls
      | [] => [[c]]

/-- Embeds `'\n'.join(lines)`. -/
def joinNl (ls : List Text) : Text := List.intercalate ['\n'] ls

/- Character classes used by the checks (cleaner.py). -/

/-- Hiragana block U+3040-U+309F. -/
def isHiragana (c : Char) : Bool := 0x3040 ≤ c.toNat ∧ c.toNat ≤ 0x309F

/-- Katakana block U+30A0-U+30FF. -/
def isKatakana (c : Char) : Bool := 0x30A0 ≤ c.toNat ∧ c.toNat ≤ 0x30FF

/-- CJK unified ideographs U+4E00-U+9FFF. -/
def isKanji (c : Char) : Bool := 0x4E00 ≤ c.toNat ∧ c.toNat ≤ 0x9FFF

/-- The character class of the emoji regex in `_has_too_many_emojis`:
the union of the nine ranges listed there. -/
def isEmojiChar (c : Char) : Bool :=
  let n := c.toNat
  (0x1F600 ≤ n ∧ n ≤ 0x1F64F) ∨ (0x1F300 ≤ n ∧ n ≤ 0x1F5FF) ∨
  (0x1F680 ≤ n ∧ n ≤ 0x1F6FF) ∨ (0x1F1E0 ≤ n ∧ n ≤ 0x1F1FF) ∨
  (0x2702 ≤ n ∧ n ≤ 0x27B0) ∨ (0x24C2 ≤ n ∧ n ≤ 0x1F251) ∨
  (0x1F900 ≤ n ∧ n ≤ 0x1F9FF) ∨ (0x1FA00 ≤ n ∧ n ≤ 0x1FA6F) ∨
  (0x1FA70 ≤ n ∧ n ≤ 0x1FAFF)

/-- The special-symbol set of `_has_too_many_special_chars`. -/
def specialChars : Text := "!@#$%^&*()_+-=[]\x7b\x7d|;:,.<>?/~`".data

def isSpecialChar (c : Char) : Bool := specialChars.contains c

/-- First box-drawing class of `_normalize_broken_notation`: its character
class string is exactly the contiguous block U+2500-U+254F. -/
def isBoxChar1 (c : Char) : Bool := 0x2500 ≤ c.toNat ∧ c.toNat ≤ 0x254F

/-- Second box-drawing class: the contiguous block U+2550-U+256C. -/
def isBoxChar2 (c : Char) : Bool := 0x2550 ≤ c.toNat ∧ c.toNat ≤ 0x256C

/-- ASCII lowering, adequate for the ASCII pattern literals matched under
`re.IGNORECASE`. -/
def lowerAscii (c : Char) : Char :=
  if 'A' ≤ c ∧ c ≤ 'Z' then Char.ofNat (c.toNat + 32) else c

/-- Model of `re`'s `\w` covering ASCII word characters and the scripts that
occur in this development (Japanese and fullwidth alphanumerics). -/
def isPyWord (c : Char) : Bool :=
  c.isAlphanum ∨ c = '_' ∨ isHiragana c ∨ isKatakana c ∨ isKanji c ∨
  (0xFF10 ≤ c.toNat ∧ c.toNat ≤ 0xFF19) ∨
  (0xFF21 ≤ c.toNat ∧ c.toNat ≤ 0xFF3A) ∨
  (0xFF41 ≤ c.toNat ∧ c.toNat ≤ 0xFF5A)

def isPyDigit (c : Char) : Bool := '0' ≤ c ∧ c ≤ '9'

/- A small matcher for the fixed regular expressions of cleaner.py.  Every
pattern used there is a sequence of the following tokens, and in each of
them the character classes of adjacent quantified tokens are disjoint and
exclude the following literal, so greedy maximal-munch matching agrees with
Python's backtracking semantics. -/

inductive PatTok where
  | lit (s : Text)
  | ws1
  | ws0
  | word1
  | digits (n : Nat)
  deriving Repr

/-- Case-insensitive-aware prefix test for a literal. -/
def litIsPrefix (ci : Bool) : Text → Text → Bool
  | [], _ => true
  | _ :: _, [] => false
  | a :: s, b :: t =>
    (if ci then lowerAscii a = lowerAscii b else a = b) && litIsPrefix ci s t

/-- Consume one token at the head of `t`; returns the number of characters
matched (maximal munch for the quantified tokens). -/
def consumeTok (ci : Bool) : PatTok → Text → Option Nat
  | PatTok.lit s, t => if litIsPrefix ci s t then some s.length else none
  | PatTok.ws1, t =>
    let n := (t.takeWhile isPySpace).length
    if n = 0 then none else some n
  | PatTok.ws0, t => some (t.takeWhile isPySpace).length
  | PatTok.word1, t =>
    let n := (t.takeWhile isPyWord).length
    if n = 0 then none else some n
  | PatTok.digits n, t =>
    if n ≤ (t.takeWhile isPyDigit).length then some n else none

/-- Match a whole token sequence at the head of `t`; returns the match length. -/
def matchToks (ci : Bool) : List PatTok → Text → Option Nat
  | [], _ => some 0
  | tok :: ts, t =>
    match consumeTok ci tok t with
    | none => none
    | some n => (matchToks ci ts (t.drop n)).map (· + n)

/-- Embeds `re.search` as a boolean: does the pattern match at some position? -/
def searchToks (ci : Bool) (pat : List PatTok) : Text → Bool
  | [] => (matchToks ci pat []).isSome
  | t@(_ :: rest) => (matchToks ci pat t).isSome || searchToks ci pat rest

/-- Embeds `re.finditer`: non-overlapping matches scanning left to right, as
(start, end) index pairs into the original text. -/
def findMatchesGo (ci : Bool) (pat : List PatTok) : Nat → Nat → Text → List (Nat × Nat)
  | 0, _, _ => []
  | _ + 1, _, [] => []
  | fuel + 1, pos, c :: rest =>
    match matchToks ci pat (c :: rest) with
    | some n =>
      if n = 0 then findMatchesGo ci pat fuel (pos + 1) rest
      else (pos, pos + n) :: findMatchesGo ci pat fuel (pos + n) (rest.drop (n - 1))
    | none => findMatchesGo ci pat fuel (pos + 1) rest

/-- The fuel `t.length` is never exhausted early: every step consumes at
least one character, so the remaining text is never longer than the
remaining fuel. -/
def findMatches (ci : Bool) (pat : List PatTok) (t : Text) : List (Nat × Nat) :=
  findMatchesGo ci pat t.length 0 t

/-- CorpusCleaner construction-time thresholds with their defaults
(cleaner.py, `__init__`).  Ratio thresholds carry a `Q` suffix because the
floats are modelled as exact rationals. -/
structure Config where
  minLength : Nat := 10
  maxLength : Nat := 10000
  maxSpecialCharRatioQ : ℚ := mkRat 3 10
  maxCodeRatioQ : ℚ := mkRat 1 5
  maxHtmlRatioQ : ℚ := mkRat 1 5
  maxEmojiRatioQ : ℚ := mkRat 1 10
  maxRepeatChars : Nat := 3
  maxSentenceLength : Nat := 500
  requireSentenceEnd : Bool := true
  minSentenceEndRatioQ : ℚ := mkRat 7 10
  minHiraganaRatioQ : ℚ := mkRat 3 10
  maxHiraganaRatioQ : ℚ := mkRat 4 5
  minKanjiRatioQ : ℚ := mkRat 1 10
  maxKanjiRatioQ : ℚ := mkRat 1 2
  deriving Repr

def defaultConfig : Config := {}

/-- External collaborators consumed through a narrow contract:
`htmlTexts t` models `[len(tag.get_text()) for tag in
BeautifulSoup(t, 'html.parser').find_all()]`, and `mexp` models the
float function `math.exp`. -/
structure Externals where
  htmlTexts : Text → List Nat
  mexp : ℚ → ℚ

/-- An `Externals` instance for concrete evaluation: markup-free texts have
no tags (true of the real parser on the texts it is applied to below). -/
def ext0 : Externals := { htmlTexts := fun _ => [], mexp := fun _ => 1 }

/- Normalization (`_normalize_text` and its helpers, cleaner.py). -/

/-- The translate table of `_convert_fullwidth_to_halfwidth`: fullwidth
Latin letters and digits to halfwidth, the fullwidth space to a space. -/
def fwToHw (c : Char) : Char :=
  let n := c.toNat
  if 0xFF21 ≤ n ∧ n ≤ 0xFF3A then Char.ofNat (n - 0xFF21 + 0x41)
  else if 0xFF41 ≤ n ∧ n ≤ 0xFF5A then Char.ofNat (n - 0xFF41 + 0x61)
  else if 0xFF10 ≤ n ∧ n ≤ 0xFF19 then Char.ofNat (n - 0xFF10 + 0x30)
  else if n = 0x3000 then ' '
  else c

def convFullwidthToHalfwidth (t : Text) : Text := t.map fwToHw

/-- Embeds `text.replace('\r\n', '\n').replace('\r', '\n')`: the combined effect is
a single left-to-right scan turning each CRLF pair and each remaining CR
into LF. -/
def fixCrlf : Text → Text
  | [] => []
  | '\r' :: '\n' :: rest => '\n' :: fixCrlf rest
  | '\r' :: rest => '\n' :: fixCrlf rest
  | c :: rest => c :: fixCrlf rest

/-- Emit a pending newline run: runs of 3 or more become exactly two. -/
def nlFlush (n : Nat) : Text :=
  if 3 ≤ n then ['\n', '\n'] else List.replicate n '\n'

/-- Worker for `collapseNl3`; the counter holds the pending newline run. -/
def collapseNl3Go : Nat → Text → Text
  | n, [] => nlFlush n
  | n, c :: rest =>
    if c = '\n' then collapseNl3Go (n + 1) rest
    else nlFlush n ++ c :: collapseNl3Go 0 rest

/-- Embeds `re.sub(r'\n{3,}', '\n\n', ·)`: each maximal run of 3 or more newlines
becomes exactly two. -/
def collapseNl3 (t : Text) : Text := collapseNl3Go 0 t

/-- Embeds `re.match(r'^#{1,6}\s+', line)`: one to six leading marker characters
followed by at least one whitespace character. -/
def isHeading (l : Text) : Bool :=
  let n := (l.takeWhile (· = '#')).length
  1 ≤ n ∧ n ≤ 6 ∧
    (match l.drop n with
     | c :: _ => isPySpace c
     | [] => false) = true

/-- Embeds `re.search(r'[。、！？]$', prev)`: the line ends with one of the four
sentence/clause marks (lines here never contain a newline). -/
def endsWithJaPunct (l : Text) : Bool :=
  match l.getLast? with
  | some c => c = '。' ∨ c = '、' ∨ c = '！' ∨ c = '？'
  | none => false

/-- One iteration of the re-flow loop in `_normalize_newlines`; the
accumulator holds the produced lines in reverse (head = most recent). -/
def reflowStep (acc : List Text) (line : Text) : List Text :=
  let l := pyStrip line
  if l = [] then
    match acc with
    | prev :: _ => if prev ≠ [] then [] :: acc else acc
    | [] => acc
  else if isHeading l then l :: acc
  else
    match acc with
    | prev :: accRest =>
      if prev ≠ [] then
        if endsWithJaPunct prev then l :: acc
        else (prev ++ ' ' :: l) :: accRest
      else l :: acc
    | [] => l :: acc

/-- Embeds `_normalize_newlines`: unify line endings, cap newline runs at two, then
re-flow soft-wrapped lines. -/
def normalizeNewlines (t : Text) : Text :=
  let t := collapseNl3 (fixCrlf t)
  joinNl (((splitOnNl t).foldl reflowStep []).reverse)

/-- Embeds `re.sub(r'(.)\1{k,}', '\1'*k, ·)`: each maximal run, of length at least
`k+1`, of a single non-newline character is cut down to `k` copies.  The
pending run `(c, n)` is the character seen and how many times. -/
def collapseRunsGo (k : Nat) : Option (Char × Nat) → Text → Text
  | none, [] => []
  | some (c, n), [] => List.replicate (if k + 1 ≤ n then k else n) c
  | none, c :: rest =>
    if c = '\n' then '\n' :: collapseRunsGo k none rest
    else collapseRunsGo k (some (c, 1)) rest
  | some (c, n), d :: rest =>
    if d = c then collapseRunsGo k (some (c, n + 1)) rest
    else
      List.replicate (if k + 1 ≤ n then k else n) c ++
        (if d = '\n' then '\n' :: collapseRunsGo k none rest
         else collapseRunsGo k (some (d, 1)) rest)

def collapseRuns (k : Nat) (t : Text) : Text := collapseRunsGo k none t

/-- Embeds `re.sub(r'[class]{3,}', '', ·)`: delete each maximal run, of length at
least 3, of characters from the class `p`.  The accumulator holds the
pending class run in reverse. -/
def removeRunsGo (p : Char → Bool) : Text → Text → Text
  | pend, [] => if 3 ≤ pend.length then [] else pend.reverse
  | pend, c :: rest =>
    if p c then removeRunsGo p (c :: pend) rest
    else (if 3 ≤ pend.length then [] else pend.reverse) ++
      c :: removeRunsGo p [] rest

def removeRuns (p : Char → Bool) (t : Text) : Text := removeRunsGo p [] t

/-- Embeds `_normalize_broken_notation`: collapse over-long same-character runs,
then strip both box-drawing glyph classes (applied in sequence). -/
def normalizeBrokenNotation (cfg : Config) (t : Text) : Text :=
  removeRuns isBoxChar2 (removeRuns isBoxChar1 (collapseRuns cfg.maxRepeatChars t))

/-- Embeds `_normalize_text`: fullwidth conversion, newline normalization, then
broken-notation normalization. -/
def normalizeText (cfg : Config) (t : Text) : Text :=
  normalizeBrokenNotation cfg (normalizeNewlines (convFullwidthToHalfwidth t))

/- The record-level checks (cleaner.py). -/

/-- Embeds `_check_length`. -/
def checkLength (cfg : Config) (t : Text) : Bool :=
  if t.length < cfg.minLength then false
  else if cfg.maxLength < t.length then false
  else true

/-- Embeds `_has_too_much_html`, with the markup parse supplied by the external
`htmlTexts` oracle (the lengths of the found tags' text contents). -/
def hasTooMuchHtml (ext : Externals) (cfg : Config) (t : Text) : Bool :=
  match ext.htmlTexts t with
  | [] => false
  | tags =>
    if t.length = 0 then false
    else (Rat.divInt (tags.sum : Int) (t.length : Int) > cfg.maxHtmlRatioQ : Bool)

/-- The twelve code-signal patterns of `_has_too_much_code`, as token
sequences (matched with `re.IGNORECASE`; `re.MULTILINE` is irrelevant as no
pattern contains an anchor).  The bare code-fence pattern subsumes the
language-tagged one for whole-line attribution but both are scanned, as in
the source. -/
def codePatterns : List (List PatTok) :=
  [ [PatTok.lit "def".data, PatTok.ws1, PatTok.word1, PatTok.ws0, PatTok.lit "(".data]
  , [PatTok.lit "class".data, PatTok.ws1, PatTok.word1]
  , [PatTok.lit "import".data, PatTok.ws1, PatTok.word1]
  , [PatTok.lit "#include".data, PatTok.ws0, PatTok.lit "<".data]
  , [PatTok.lit "function".data, PatTok.ws1, PatTok.word1, PatTok.ws0, PatTok.lit "(".data]
  , [PatTok.lit "const".data, PatTok.ws1, PatTok.word1, PatTok.ws0, PatTok.lit "=".data]
  , [PatTok.lit "let".data, PatTok.ws1, PatTok.word1, PatTok.ws0, PatTok.lit "=".data]
  , [PatTok.lit "var".data, PatTok.ws1, PatTok.word1, PatTok.ws0, PatTok.lit "=".data]
  , [PatTok.lit "<?php".data]
  , [PatTok.lit "<?=".data]
  , [PatTok.lit "```".data]
  , [PatTok.lit "```".data, PatTok.word1]
  ]

/-- Embeds `text.rfind('\n', 0, s)`: index of the last newline before `s`, or -1. -/
def rfindNl (t : Text) (s : Nat) : Int :=
  (List.range s).foldl
    (fun acc i => if t.getD i '\x00' = '\n' then (i : Int) else acc) (-1)

/-- Embeds `text.find('\n', e)` with the fallback to `len(text)`. -/
def findNlFrom (t : Text) (e : Nat) : Int :=
  match ((List.range t.length).filter (fun i => e ≤ i)).find?
      (fun i => t.getD i '\x00' = '\n') with
  | some i => (i : Int)
  | none => (t.length : Int)

/-- Embeds `_has_too_much_code`: every pattern match contributes the extent of its
enclosing line (from the preceding newline's index to the following
newline's index), double counting across patterns by design. -/
def hasTooMuchCode (cfg : Config) (t : Text) : Bool :=
  if t.length = 0 then false
  else
    let codeCharCount : Int :=
      (codePatterns.map (fun pat =>
        ((findMatches true pat t).map (fun m =>
          findNlFrom t m.2 - rfindNl t m.1)).sum)).sum
    (Rat.divInt codeCharCount (t.length : Int) > cfg.maxCodeRatioQ : Bool)

/-- The five log-signal patterns of `_looks_like_log` (case sensitive).
The bracketed-severity alternation is expanded into its five literals. -/
def logSignalHit (t : Text) : List Bool :=
  [ searchToks false [PatTok.digits 4, PatTok.lit "-".data, PatTok.digits 2,
      PatTok.lit "-".data, PatTok.digits 2, PatTok.ws1, PatTok.digits 2,
      PatTok.lit ":".data, PatTok.digits 2, PatTok.lit ":".data, PatTok.digits 2] t
  , (searchToks false [PatTok.lit "[DEBUG]".data] t ||
     searchToks false [PatTok.lit "[INFO]".data] t ||
     searchToks false [PatTok.lit "[WARN]".data] t ||
     searchToks false [PatTok.lit "[ERROR]".data] t ||
     searchToks false [PatTok.lit "[FATAL]".data] t)
  , searchToks false [PatTok.lit "ERROR:".data] t
  , searchToks false [PatTok.lit "Exception:".data] t
  , searchToks false [PatTok.lit "Traceback".data, PatTok.ws1,
      PatTok.lit "(most recent call last)".data] t
  ]

/-- Embeds `_looks_like_log`: at least 3 of the 5 signal patterns match somewhere. -/
def looksLikeLog (t : Text) : Bool :=
  3 ≤ (logSignalHit t).count true

/-- Embeds `_has_too_many_special_chars`. -/
def hasTooManySpecialChars (cfg : Config) (t : Text) : Bool :=
  if t = [] then false
  else
    let specialCount := t.countP isSpecialChar
    (Rat.divInt (specialCount : Int) (t.length : Int) > cfg.maxSpecialCharRatioQ : Bool)

/-- Embeds `_has_too_many_emojis`: `len(findall)` of the one-or-more emoji class,
i.e. the number of maximal emoji-character runs, over the character count. -/
def hasTooManyEmojis (cfg : Config) (t : Text) : Bool :=
  if t = [] then false
  else
    let emojiCount := (reFindallPlus isEmojiChar t).length
    if t.length = 0 then false
    else (Rat.divInt (emojiCount : Int) (t.length : Int) > cfg.maxEmojiRatioQ : Bool)

/-- Embeds `_check_impurities`: fails (returns false) if any detector fires,
checked in source order. -/
def checkImpurities (ext : Externals) (cfg : Config) (t : Text) : Bool :=
  if hasTooMuchHtml ext cfg t then false
  else if hasTooMuchCode cfg t then false
  else if looksLikeLog t then false
  else if hasTooManySpecialChars cfg t then false
  else if hasTooManyEmojis cfg t then false
  else true

/-- The sentence-splitting loop of `_check_sentence_structure`, flattened to
one pass over the characters: at each terminator the stripped current
segment, when non-empty, is recorded together with the fact that it was
terminated; a non-empty stripped trailing segment is recorded as open.
(The `''` parts that `re.split` interleaves take the terminator branch of
the loop — `'' in '。！？'` holds — but at those points the current segment
is always empty, so they contribute nothing.) -/
def sentencesAux : Text → Text → List (Text × Bool)
  | [], cur =>
    let s := pyStrip cur.reverse
    if s = [] then [] else [(s, false)]
  | c :: rest, cur =>
    if c = '。' ∨ c = '！' ∨ c = '？' then
      let s := pyStrip cur.reverse
      if s = [] then sentencesAux rest []
      else (s, true) :: sentencesAux rest []
    else sentencesAux rest (c :: cur)

def sentencesOf (t : Text) : List (Text × Bool) := sentencesAux t []

/-- Embeds `_check_sentence_structure`. -/
def checkSentenceStructure (cfg : Config) (t : Text) : Bool :=
  let ss := sentencesOf t
  if ss = [] then false
  else if ss.any (fun s => cfg.maxSentenceLength < s.1.length) then false
  else if cfg.requireSentenceEnd then
    let completed := ss.countP (·.2)
    if (Rat.divInt (completed : Int) (ss.length : Int) < cfg.minSentenceEndRatioQ : Bool) then false
    else true
  else true

/-- Embeds `_check_japanese_character_ratio`. -/
def checkJapaneseChars (cfg : Config) (t : Text) : Bool :=
  if t = [] then false
  else
    let hiraganaCount := t.countP isHiragana
    let katakanaCount := t.countP isKatakana
    let kanjiCount := t.countP isKanji
    let totalJapanese := hiraganaCount + katakanaCount + kanjiCount
    if totalJapanese < 10 then false
    else if t.length = 0 then false
    else
      let hiraganaRat : ℚ := Rat.divInt (hiraganaCount : Int) (t.length : Int)
      let kanjiRat : ℚ := Rat.divInt (kanjiCount : Int) (t.length : Int)
      if (hiraganaRat < cfg.minHiraganaRatioQ ∨ cfg.maxHiraganaRatioQ < hiraganaRat : Bool)
      then false
      else if (kanjiRat < cfg.minKanjiRatioQ ∨ cfg.maxKanjiRatioQ < kanjiRat : Bool)
      then false
      else true

/- Records, stats and the cleaning stage. -/

/-- A JSON-equivalent field value: a string, or an opaque non-string value
with an identity and a Python truthiness. -/
inductive Value where
  | vStr (s : Text)
  | vOther (id : Nat) (truthy : Bool)
  deriving DecidableEq, Repr

/-- A record: an open mapping from field names to values. -/
abbrev Entry := List (String × Value)

/-- Field lookup (`entry[k]` / `k in entry`). -/
def getField (e : Entry) (k : String) : Option Value :=
  (e.find? (fun p => p.1 = k)).map (·.2)

/-- In-place field overwrite (`entry[k] = v`). -/
def setField (e : Entry) (k : String) (v : Value) : Entry :=
  e.map (fun p => if p.1 = k then (p.1, v) else p)

/-- The stats counters of `CorpusCleaner.stats` incremented by `clean`, plus
the decode-error counter the pipeline adds to the same mapping. -/
structure CStats where
  jsonDecodeError : Nat := 0
  missingTextField : Nat := 0
  invalidTextType : Nat := 0
  lengthFiltered : Nat := 0
  duplicateFiltered : Nat := 0
  impurityFiltered : Nat := 0
  sentenceStructureFiltered : Nat := 0
  japaneseCharacterRatioFiltered : Nat := 0
  kept : Nat := 0
  deriving DecidableEq, Repr

/-- The sum of the rejection-reason counters (everything except `kept`). -/
def CStats.rejections (s : CStats) : Nat :=
  s.jsonDecodeError + s.missingTextField + s.invalidTextType +
  s.lengthFiltered + s.duplicateFiltered + s.impurityFiltered +
  s.sentenceStructureFiltered + s.japaneseCharacterRatioFiltered

/-- Mutable state of one `CorpusCleaner` instance: the duplicate index
(`seen_texts`) and the stats counters. -/
structure CState where
  seen : List Text := []
  stats : CStats := {}
  deriving DecidableEq, Repr

def freshCState : CState := {}

/-- Embeds `_check_duplicate`: check-and-add on the whitespace-normalized
fingerprint; returns the updated state and whether the text was unique. -/
def checkDuplicate (st : CState) (t : Text) : CState × Bool :=
  let f := fingerprint t
  if f ∈ st.seen then (st, false)
  else ({ st with seen := f :: st.seen }, true)

/-- Embeds `CorpusCleaner.clean`.  The middle component of the result is the state
of the caller's record object after the call (the dict is mutated only on
the success path, at `entry[text_field] = normalized_text`); the last
component is the return value (`none` models Python's `None`). -/
def clean (cfg : Config) (ext : Externals) (st : CState) (e : Entry)
    (tf : String) : CState × Entry × Option Entry :=
  match getField e tf with
  | none =>
    ({ st with stats := { st.stats with
        missingTextField := st.stats.missingTextField + 1 } }, e, none)
  | some (Value.vOther _ _) =>
    ({ st with stats := { st.stats with
        invalidTextType := st.stats.invalidTextType + 1 } }, e, none)
  | some (Value.vStr t) =>
    if ¬ checkLength cfg t then
      ({ st with stats := { st.stats with
          lengthFiltered := st.stats.lengthFiltered + 1 } }, e, none)
    else
      let (st1, unique) := checkDuplicate st t
      if ¬ unique then
        ({ st1 with stats := { st1.stats with
            duplicateFiltered := st1.stats.duplicateFiltered + 1 } }, e, none)
      else if ¬ checkImpurities ext cfg t then
        ({ st1 with stats := { st1.stats with
            impurityFiltered := st1.stats.impurityFiltered + 1 } }, e, none)
      else if ¬ checkSentenceStructure cfg t then
        ({ st1 with stats := { st1.stats with
            sentenceStructureFiltered := st1.stats.sentenceStructureFiltered + 1 } }, e, none)
      else if ¬ checkJapaneseChars cfg t then
        ({ st1 with stats := { st1.stats with
            japaneseCharacterRatioFiltered := st1.stats.japaneseCharacterRatioFiltered + 1 } },
          e, none)
      else
        let e' := setField e tf (Value.vStr (normalizeText cfg t))
        ({ st1 with stats := { st1.stats with kept := st1.stats.kept + 1 } },
          e', some e')

/-- Clean a list of records in order, returning the final state and each
record's return value. -/
def cleanBatch (cfg : Config) (ext : Externals) (st : CState)
    (es : List Entry) (tf : String) : CState × List (Option Entry) :=
  match es with
  | [] => (st, [])
  | e :: rest =>
    let r := clean cfg ext st e tf
    let (st', outs) := cleanBatch cfg ext r.1 rest tf
    (st', r.2.2 :: outs)

/- The three-phase pipeline (pipeline.py). -/

/-- One line of a newline-delimited record stream: either a line that fails
JSON decoding, or the decoded record.  (Serialization is out of scope: a
dump/load round trip yields an equal record, so a stage's output artifact
is modelled by its list of records.) -/
inductive Line where
  | malformed
  | record (e : Entry)
  deriving DecidableEq, Repr

/-- Embeds `q / n` for a natural `n`, written on the raw representation so that it
evaluates; for `n > 0` this is exact rational division. -/
def divQN (q : ℚ) (n : Nat) : ℚ := Rat.divInt q.num (q.den * n)

/-- The stage-2 external scorer contract (`kenlm.Model.score` with
sentence-boundary markers): a log-score, or `none` when the call raises. -/
structure KenlmScorer where
  score : Text → Option ℚ

/-- The stage-3 external scorer (`PerplexityCalculator`'s model backend):
`attempts i` is the outcome of the i-th load attempt of `_load_model`, and
`calcPerp` is the perplexity computation of `calculate_perplexity`'s `try`
block once the model is loaded (`none` = the computation failed). -/
structure LlmCalc where
  attempts : Nat → Bool
  calcPerp : Text → Option ℚ

/-- Errors that escape a stage and abort the run. -/
inductive RunError where
  | modelLoadFailure
  | typeErr
  deriving DecidableEq, Repr

/-- Embeds `_load_model` (perplexity.py): up to `max_retries = 3` attempts (the
sleeps between attempts do not affect the outcome); success as soon as one
attempt succeeds, a `RuntimeError` after the third failure. -/
def loadModelOk (m : LlmCalc) : Bool :=
  m.attempts 0 || m.attempts 1 || m.attempts 2

/-- Embeds `calculate_perplexity`: empty or whitespace-only text returns `None`
before any model load; otherwise the lazy load runs outside the `try`
block, so a load failure propagates.  Returns the new loaded flag and the
optional perplexity. -/
def calculatePerplexity (m : LlmCalc) (loaded : Bool) (t : Text) :
    Except RunError (Bool × Option ℚ) :=
  if t = [] ∨ pyStrip t = [] then Except.ok (loaded, none)
  else if loaded then Except.ok (true, m.calcPerp t)
  else if loadModelOk m then Except.ok (true, m.calcPerp t)
  else Except.error RunError.modelLoadFailure

/-- Embeds `is_high_quality`: a missing perplexity is rejected (fail-closed),
otherwise compare against the threshold. -/
def isHighQuality (m : LlmCalc) (loaded : Bool) (t : Text) (maxPerp : ℚ) :
    Except RunError (Bool × Bool) :=
  match calculatePerplexity m loaded t with
  | Except.error err => Except.error err
  | Except.ok (loaded', none) => Except.ok (loaded', false)
  | Except.ok (loaded', some p) => Except.ok (loaded', (p ≤ maxPerp : Bool))

/-- Running totals and output of `_phase1_basic_cleaning`. -/
structure Ph1Result where
  cstate : CState
  totalProcessed : Nat := 0
  totalKept : Nat := 0
  output : List Entry := []
  deriving DecidableEq, Repr

/-- One loop iteration of `_phase1_basic_cleaning`. -/
def phase1Step (cfg : Config) (ext : Externals) (tf : String)
    (r : Ph1Result) (l : Line) : Ph1Result :=
  match l with
  | Line.malformed =>
    { r with
      cstate := { r.cstate with stats := { r.cstate.stats with
        jsonDecodeError := r.cstate.stats.jsonDecodeError + 1 } }
      totalProcessed := r.totalProcessed + 1 }
  | Line.record e =>
    let c := clean cfg ext r.cstate e tf
    match c.2.2 with
    | some e' =>
      { cstate := c.1
        totalProcessed := r.totalProcessed + 1
        totalKept := r.totalKept + 1
        output := r.output ++ [e'] }
    | none =>
      { r with cstate := c.1, totalProcessed := r.totalProcessed + 1 }

/-- Embeds `_phase1_basic_cleaning` over a record stream, starting from the
cleaner state `st` (the pipeline's `self.cleaner`). -/
def phase1Run (cfg : Config) (ext : Externals) (tf : String) (st : CState)
    (input : List Line) : Ph1Result :=
  input.foldl (phase1Step cfg ext tf) { cstate := st }

/-- The three totals returned by phases 2 and 3. -/
structure StageReport where
  totalProcessed : Nat := 0
  totalKept : Nat := 0
  totalExcluded : Nat := 0
  deriving DecidableEq, Repr

/-- Running totals and output of `_phase2_kenlm_filtering`. -/
structure Ph2Result where
  totalProcessed : Nat := 0
  totalKept : Nat := 0
  totalFiltered : Nat := 0
  output : List Entry := []
  deriving DecidableEq, Repr

/-- One loop iteration of `_phase2_kenlm_filtering`.  A line that fails to
decode, and a record whose text field is absent, empty or otherwise falsy,
are skipped with no counter beyond `total_processed`.  A truthy non-string
text reaches `kenlm_model.score`, which raises on a non-string argument,
landing in the `except` branch (filtered). -/
def phase2Step (tf : String) (maxPerp : ℚ) (km : KenlmScorer)
    (ext : Externals) (r : Ph2Result) (l : Line) : Ph2Result :=
  let r := { r with totalProcessed := r.totalProcessed + 1 }
  match l with
  | Line.malformed => r
  | Line.record e =>
    match getField e tf with
    | none => r
    | some (Value.vStr []) => r
    | some (Value.vOther _ truthy) =>
      if truthy then { r with totalFiltered := r.totalFiltered + 1 } else r
    | some (Value.vStr t) =>
      match km.score t with
      | none => { r with totalFiltered := r.totalFiltered + 1 }
      | some s =>
        let words := pyWords t
        if 0 < words then
          let perp := ext.mexp (divQN (-s) words)
          if perp ≤ maxPerp then
            { r with totalKept := r.totalKept + 1, output := r.output ++ [e] }
          else { r with totalFiltered := r.totalFiltered + 1 }
        else { r with totalFiltered := r.totalFiltered + 1 }

def phase2Run (tf : String) (maxPerp : ℚ) (km : KenlmScorer)
    (ext : Externals) (input : List Line) : Ph2Result :=
  input.foldl (phase2Step tf maxPerp km ext) {}

def Ph2Result.report (r : Ph2Result) : StageReport :=
  { totalProcessed := r.totalProcessed
    totalKept := r.totalKept
    totalExcluded := r.totalFiltered }

/-- Running state of `_phase3_llm_filtering`, including the lazily loaded
model flag (`_model_loaded`). -/
structure Ph3Result where
  loaded : Bool := false
  totalProcessed : Nat := 0
  totalKept : Nat := 0
  totalFiltered : Nat := 0
  output : List Entry := []
  deriving DecidableEq, Repr

/-- One loop iteration of `_phase3_llm_filtering`.  The loop has no
`except` handler: an error escaping `is_high_quality` aborts the stage and
the run.  A truthy non-string text raises inside `calculate_perplexity`
before its `try` block (`text.strip()` on a non-string). -/
def phase3Step (tf : String) (maxPerp : ℚ) (m : LlmCalc)
    (r : Ph3Result) (l : Line) : Except RunError Ph3Result :=
  let r := { r with totalProcessed := r.totalProcessed + 1 }
  match l with
  | Line.malformed => Except.ok r
  | Line.record e =>
    match getField e tf with
    | none => Except.ok r
    | some (Value.vStr []) => Except.ok r
    | some (Value.vOther _ truthy) =>
      if truthy then Except.error RunError.typeErr else Except.ok r
    | some (Value.vStr t) =>
      match isHighQuality m r.loaded t maxPerp with
      | Except.error err => Except.error err
      | Except.ok (loaded', good) =>
        if good then
          Except.ok { r with loaded := loaded'
                             totalKept := r.totalKept + 1
                             output := r.output ++ [e] }
        else
          Except.ok { r with loaded := loaded'
                             totalFiltered := r.totalFiltered + 1 }

def phase3Run (tf : String) (maxPerp : ℚ) (m : LlmCalc)
    (input : List Line) : Except RunError Ph3Result :=
  input.foldlM (phase3Step tf maxPerp m) {}

def Ph3Result.report (r : Ph3Result) : StageReport :=
  { totalProcessed := r.totalProcessed
    totalKept := r.totalKept
    totalExcluded := r.totalFiltered }

/-- The pipeline's post-construction configuration: `kenlmModel`,
`useLlm` and `llmCalculator` are the fields `__init__` ends up with after
model detection (a scorer that failed to construct is `none`). -/
structure Pipeline where
  cfg : Config := {}
  textField : String := "content"
  kenlmModel : Option KenlmScorer := none
  maxKenlmPerplexity : ℚ := mkRat 100 1
  useLlm : Bool := false
  llmCalculator : Option LlmCalc := none
  maxLlmPerplexity : ℚ := mkRat 100 1

/-- The combined statistics report of `process_file`; a skipped phase
reports the empty mapping, modelled as `none`. -/
structure RunStats where
  phase1Stats : CStats
  phase1Report : StageReport
  phase2Report : Option StageReport
  phase3Report : Option StageReport
  deriving DecidableEq, Repr

/-- Embeds `process_file` over a decoded input stream, with the cleaner in state
`st0` at the call.  Each intermediate artifact is re-read as the record
stream the stage produced. -/
def processFile (p : Pipeline) (ext : Externals) (st0 : CState)
    (input : List Line) : Except RunError (List Entry × RunStats) :=
  let r1 := phase1Run p.cfg ext p.textField st0 input
  let rep1 : StageReport :=
    { totalProcessed := r1.totalProcessed
      totalKept := r1.totalKept
      totalExcluded := r1.totalProcessed - r1.totalKept }
  let ph2 : List Entry × Option StageReport :=
    match p.kenlmModel with
    | some km =>
      let r2 := phase2Run p.textField p.maxKenlmPerplexity km ext
        (r1.output.map Line.record)
      (r2.output, some r2.report)
    | none => (r1.output, none)
  match p.useLlm, p.llmCalculator with
  | true, some m =>
    match phase3Run p.textField p.maxLlmPerplexity m
        (ph2.1.map Line.record) with
    | Except.error err => Except.error err
    | Except.ok r3 =>
      Except.ok (r3.output,
        { phase1Stats := r1.cstate.stats
          phase1Report := rep1
          phase2Report := ph2.2
          phase3Report := some r3.report })
  | _, _ =>
    Except.ok (ph2.1,
      { phase1Stats := r1.cstate.stats
        phase1Report := rep1
        phase2Report := ph2.2
        phase3Report := none })

section Helpers

/-- Evaluating `clean` on a record whose fingerprint is already indexed: rejected as a
duplicate, state otherwise untouched. -/
theorem clean_of_dup (cfg : Config) (ext : Externals) (st : CState)
    (e : Entry) (tf : String) (t : Text)
    (hg : getField e tf = some (Value.vStr t))
    (hl : checkLength cfg t = true)
    (hdup : fingerprint t ∈ st.seen) :
    clean cfg ext st e tf =
      ({ st with stats := { st.stats with
          duplicateFiltered := st.stats.duplicateFiltered + 1 } }, e, none) := by
  unfold clean checkDuplicate
  rw [hg]
  simp [hl, hdup]

/-- On a fresh fingerprint, `clean` records it in the index and leaves the
duplicate counter alone, whatever the later checks decide. -/
theorem clean_of_new (cfg : Config) (ext : Externals) (st : CState)
    (e : Entry) (tf : String) (t : Text)
    (hg : getField e tf = some (Value.vStr t))
    (hl : checkLength cfg t = true)
    (hnew : fingerprint t ∉ st.seen) :
    (clean cfg ext st e tf).1.seen = fingerprint t :: st.seen ∧
    (clean cfg ext st e tf).1.stats.duplicateFiltered =
      st.stats.duplicateFiltered := by
  unfold clean checkDuplicate
  rw [hg]
  simp only [hl, hnew]
  split_ifs <;> simp_all

end Helpers

/-- Evaluating `clean` on a record passing every check: the fingerprint is indexed,
`kept` is bumped, and the returned record carries the normalized text. -/
theorem clean_success (cfg : Config) (ext : Externals) (st : CState)
    (e : Entry) (tf : String) (t : Text)
    (hg : getField e tf = some (Value.vStr t))
    (hl : checkLength cfg t = true)
    (hi : checkImpurities ext cfg t = true)
    (hs : checkSentenceStructure cfg t = true)
    (hj : checkJapaneseChars cfg t = true)
    (hnew : fingerprint t ∉ st.seen) :
    clean cfg ext st e tf =
      ({ seen := fingerprint t :: st.seen,
         stats := { st.stats with kept := st.stats.kept + 1 } },
       setField e tf (Value.vStr (normalizeText cfg t)),
       some (setField e tf (Value.vStr (normalizeText cfg t)))) := by
  unfold clean checkDuplicate
  rw [hg]
  simp [hl, hi, hs, hj, hnew]

/-- The duplicate index only grows across a `clean` call. -/
theorem clean_seen_mono (cfg : Config) (ext : Externals) (st : CState)
    (e : Entry) (tf : String) (f : Text) (hf : f ∈ st.seen) :
    f ∈ (clean cfg ext st e tf).1.seen := by
  unfold clean checkDuplicate
  rcases hg : getField e tf with _ | v
  · simpa using hf
  · rcases v with t | ⟨i, b⟩
    · dsimp only
      split_ifs <;> simp_all
    · simpa using hf

/-- The duplicate index only grows across a batch of `clean` calls. -/
theorem cleanBatch_seen_mono (cfg : Config) (ext : Externals) (tf : String)
    (es : List Entry) (st : CState) (f : Text) (hf : f ∈ st.seen) :
    f ∈ (cleanBatch cfg ext st es tf).1.seen := by
  induction es generalizing st with
  | nil => simpa using hf
  | cons e rest ih =>
    simp only [cleanBatch]
    exact ih _ (clean_seen_mono cfg ext st e tf f hf)

/-- Lookup on a cons cell. -/
theorem getField_cons (pk : String) (pv : Value) (rest : Entry) (k : String) :
    getField ((pk, pv) :: rest) k = if pk = k then some pv else getField rest k := by
  by_cases h : pk = k <;> simp [getField, List.find?_cons, h]

/-- Overwriting one field leaves every other field's lookup unchanged. -/
theorem getField_setField_ne (e : Entry) (tf k : String) (v : Value)
    (hk : k ≠ tf) : getField (setField e tf v) k = getField e k := by
  induction e with
  | nil => rfl
  | cons p rest ih =>
    rcases p with ⟨pk, pv⟩
    by_cases hp : pk = tf
    · rw [show setField ((pk, pv) :: rest) tf v = (pk, v) :: setField rest tf v from
        by simp [setField, hp]]
      rw [getField_cons, getField_cons]
      have hpk : pk ≠ k := fun h => hk (by rw [← h, hp])
      simp [hpk, ih]
    · rw [show setField ((pk, pv) :: rest) tf v = (pk, pv) :: setField rest tf v from
        by simp [setField, hp]]
      rw [getField_cons, getField_cons, ih]

/-- Every `clean` call attributes the record to exactly one counter: a
single rejection reason, or `kept`. -/
theorem clean_counts (cfg : Config) (ext : Externals) (st : CState)
    (e : Entry) (tf : String) :
    ((clean cfg ext st e tf).2.2 = none ∧
     (clean cfg ext st e tf).1.stats.rejections = st.stats.rejections + 1 ∧
     (clean cfg ext st e tf).1.stats.kept = st.stats.kept) ∨
    ((clean cfg ext st e tf).2.2.isSome = true ∧
     (clean cfg ext st e tf).1.stats.rejections = st.stats.rejections ∧
     (clean cfg ext st e tf).1.stats.kept = st.stats.kept + 1) := by
  unfold clean checkDuplicate
  rcases getField e tf with _ | v
  · left
    refine ⟨rfl, ?_, rfl⟩
    simp [CStats.rejections]
    omega
  · rcases v with t | ⟨i, b⟩
    · dsimp only
      split_ifs <;>
        first
          | (left; refine ⟨rfl, ?_, rfl⟩; simp [CStats.rejections]; omega)
          | (right; refine ⟨rfl, ?_, rfl⟩; simp [CStats.rejections])
    · left
      refine ⟨rfl, ?_, rfl⟩
      simp [CStats.rejections]
      omega

/-- C10: a rejected record is returned to the caller untouched; a kept
record differs from the input only in the designated text field, which now
holds the normalized text. -/
theorem c10_frame (cfg : Config) (ext : Externals) (st : CState)
    (e : Entry) (tf : String) :
    ((clean cfg ext st e tf).2.2 = none ∧ (clean cfg ext st e tf).2.1 = e) ∨
    (∃ t, getField e tf = some (Value.vStr t) ∧
      (clean cfg ext st e tf).2.1 =
        setField e tf (Value.vStr (normalizeText cfg t)) ∧
      (clean cfg ext st e tf).2.2 =
        some (setField e tf (Value.vStr (normalizeText cfg t))) ∧
      ∀ k, k ≠ tf →
        getField ((clean cfg ext st e tf).2.1) k = getField e k) := by
  unfold clean checkDuplicate
  rcases hg : getField e tf with _ | v
  · left; exact ⟨rfl, rfl⟩
  · rcases v with t | ⟨i, b⟩
    · dsimp only
      split_ifs <;>
        first
          | (left; exact ⟨rfl, rfl⟩)
          | (right
             refine ⟨t, rfl, rfl, rfl, fun k hk => ?_⟩
             exact getField_setField_ne e tf k _ hk)
    · left; exact ⟨rfl, rfl⟩

/-- One phase-1 iteration keeps the balance between processed records and
attributed outcomes. -/
theorem phase1Step_conserv (cfg : Config) (ext : Externals) (tf : String)
    (r : Ph1Result) (l : Line) :
    (phase1Step cfg ext tf r l).totalProcessed + r.totalKept +
      r.cstate.stats.rejections =
    r.totalProcessed + (phase1Step cfg ext tf r l).totalKept +
      (phase1Step cfg ext tf r l).cstate.stats.rejections := by
  cases l with
  | malformed =>
    simp [phase1Step, CStats.rejections]
    omega
  | record e =>
    rcases clean_counts cfg ext r.cstate e tf with ⟨h1, h2, _⟩ | ⟨h1, h2, _⟩
    · simp [phase1Step, h1, h2]
      omega
    · rcases hc : (clean cfg ext r.cstate e tf).2.2 with _ | e'
      · rw [hc] at h1
        simp at h1
      · simp [phase1Step, hc, h2]
        omega

/-- Phase-1 conservation over any stream, relative to the starting totals. -/
theorem phase1Run_balance (cfg : Config) (ext : Externals) (tf : String)
    (input : List Line) : ∀ r0 : Ph1Result,
    (input.foldl (phase1Step cfg ext tf) r0).totalProcessed + r0.totalKept +
      r0.cstate.stats.rejections =
    r0.totalProcessed + (input.foldl (phase1Step cfg ext tf) r0).totalKept +
      (input.foldl (phase1Step cfg ext tf) r0).cstate.stats.rejections := by
  induction input with
  | nil => intro r0; rfl
  | cons l rest ih =>
    intro r0
    simp only [List.foldl_cons]
    have h1 := phase1Step_conserv cfg ext tf r0 l
    have h2 := ih (phase1Step cfg ext tf r0 l)
    omega

/-- A stage-2/3 input line that is attributable: it decodes, and its text
field holds a non-empty string (true of every line of a stage-1 or stage-2
output artifact). -/
def LineAttributable (tf : String) : Line → Prop
  | Line.malformed => False
  | Line.record e => ∃ t, getField e tf = some (Value.vStr t) ∧ t ≠ []

/-- One phase-2 iteration on an attributable line lands in `kept` or
`filtered`. -/
theorem phase2Step_conserv (tf : String) (maxPerp : ℚ) (km : KenlmScorer)
    (ext : Externals) (r : Ph2Result) (l : Line)
    (h : LineAttributable tf l) :
    (phase2Step tf maxPerp km ext r l).totalProcessed = r.totalProcessed + 1 ∧
    (phase2Step tf maxPerp km ext r l).totalKept +
      (phase2Step tf maxPerp km ext r l).totalFiltered =
      r.totalKept + r.totalFiltered + 1 := by
  cases l with
  | malformed => cases h
  | record e =>
    rcases h with ⟨t, hg, hne⟩
    rcases t with _ | ⟨c, cs⟩
    · exact absurd rfl hne
    · simp only [phase2Step, hg]
      rcases km.score (c :: cs) with _ | s
      · exact ⟨rfl, by dsimp only; omega⟩
      · dsimp only
        split_ifs <;> exact ⟨rfl, by dsimp only; omega⟩

/-- Phase-2 conservation for attributable streams. -/
theorem phase2Run_balance (tf : String) (maxPerp : ℚ) (km : KenlmScorer)
    (ext : Externals) (input : List Line)
    (h : ∀ l ∈ input, LineAttributable tf l) : ∀ r0 : Ph2Result,
    (input.foldl (phase2Step tf maxPerp km ext) r0).totalProcessed +
      r0.totalKept + r0.totalFiltered =
    r0.totalProcessed +
      (input.foldl (phase2Step tf maxPerp km ext) r0).totalKept +
      (input.foldl (phase2Step tf maxPerp km ext) r0).totalFiltered := by
  induction input with
  | nil => intro r0; rfl
  | cons l rest ih =>
    intro r0
    simp only [List.foldl_cons]
    have h1 := phase2Step_conserv tf maxPerp km ext r0 l (h l (by simp))
    have h2 := ih (fun x hx => h x (by simp [hx])) (phase2Step tf maxPerp km ext r0 l)
    omega

/-- One successful phase-3 iteration on an attributable line lands in
`kept` or `filtered`. -/
theorem phase3Step_conserv (tf : String) (maxPerp : ℚ) (m : LlmCalc)
    (r r' : Ph3Result) (l : Line) (h : LineAttributable tf l)
    (hstep : phase3Step tf maxPerp m r l = Except.ok r') :
    r'.totalProcessed = r.totalProcessed + 1 ∧
    r'.totalKept + r'.totalFiltered = r.totalKept + r.totalFiltered + 1 := by
  cases l with
  | malformed => cases h
  | record e =>
    rcases h with ⟨t, hg, hne⟩
    rcases t with _ | ⟨c, cs⟩
    · exact absurd rfl hne
    · simp only [phase3Step, hg] at hstep
      rcases hq : isHighQuality m r.loaded (c :: cs) maxPerp with err | ⟨l', good⟩
      · rw [hq] at hstep
        cases hstep
      · rw [hq] at hstep
        dsimp only at hstep
        cases good with
        | true =>
          rw [if_pos rfl] at hstep
          injection hstep with hstep
          subst hstep
          exact ⟨rfl, by dsimp only; omega⟩
        | false =>
          rw [if_neg (by simp)] at hstep
          injection hstep with hstep
          subst hstep
          exact ⟨rfl, by dsimp only; omega⟩

/-- Phase-3 conservation for attributable streams, when the stage runs to
completion. -/
theorem phase3Run_balance (tf : String) (maxPerp : ℚ) (m : LlmCalc)
    (input : List Line) (h : ∀ l ∈ input, LineAttributable tf l) :
    ∀ (r0 r : Ph3Result),
    input.foldlM (phase3Step tf maxPerp m) r0 = Except.ok r →
    r.totalProcessed + r0.totalKept + r0.totalFiltered =
      r0.totalProcessed + r.totalKept + r.totalFiltered := by
  induction input with
  | nil =>
    intro r0 r hr
    simp only [List.foldlM_nil, pure, Except.pure, Except.ok.injEq] at hr
    subst hr
    rfl
  | cons l rest ih =>
    intro r0 r hr
    rw [List.foldlM_cons] at hr
    rcases hs : phase3Step tf maxPerp m r0 l with err | r1
    · rw [hs] at hr
      cases hr
    · rw [hs] at hr
      simp only [bind, Except.bind] at hr
      have h1 := phase3Step_conserv tf maxPerp m r0 r1 l (h l (by simp)) hs
      have h2 := ih (fun x hx => h x (by simp [hx])) r1 r hr
      omega

/- Concrete inputs used by the individual claims below. -/

/-- A box-glyph text on which normalization is not idempotent. -/
def tC2 : Text := "ww────ww".data

/-- Two raw texts that differ only in a soft line break and normalize (and
fingerprint) identically. -/
def tC3a : Text := "これは日本の文化を楽しく\n学ぶ文章ですよ。".data

def tC3b : Text := "これは日本の文化を楽しく 学ぶ文章ですよ。".data

def eC3a : Entry := [("content", Value.vStr tC3a)]

def eC3b : Entry := [("content", Value.vStr tC3b)]

/-- A fullwidth-Latin text and its halfwidth twin: distinct raw texts and
fingerprints, equal normal forms. -/
def tC3fw : Text := "Ａは今日も勉強をします。".data

def tC3hw : Text := "Aは今日も勉強をします。".data

def eC3fw : Entry := [("content", Value.vStr tC3fw)]

def eC3hw : Entry := [("content", Value.vStr tC3hw)]

/-- C2: the claim (normalization is idempotent on every input) is the
spec's stated intent — it instructs a regression test asserting it and
calls any divergence a defect — but the code violates it: stripping a
box-glyph run can merge the two surrounding same-character runs into one
over-long run that only the next pass collapses.  On `"ww────ww"` the first
pass yields `"wwww"`, the second `"www"`. -/
theorem c2_normalize_not_idempotent :
    normalizeText defaultConfig (normalizeText defaultConfig tC2) ≠
      normalizeText defaultConfig tC2 ∧
    normalizeText defaultConfig tC2 = "wwww".data ∧
    normalizeText defaultConfig "wwww".data = "www".data :=
  ⟨by decide, by decide, by decide⟩

/-- The emoji ratio as the claim words it: characters falling in the fixed
emoji ranges, over the character count. -/
def emojiCharCountSpec (t : Text) : Nat := t.countP isEmojiChar

/-- An all-Japanese text: every character lies in the range U+24C2-U+1F251
of the emoji class, yet they form a single run. -/
def tC7 : Text := "ああああああああああ。".data

/-- C7 counterexample: the detector passes `tC7` although the fraction of
characters inside the emoji ranges (all 11 of 11) exceeds the threshold —
the code counts maximal runs (`len(findall('[...]+'))`), not characters. -/
theorem c7_counterexample :
    hasTooManyEmojis defaultConfig tC7 = false ∧
    Rat.divInt (emojiCharCountSpec tC7 : Int) (tC7.length : Int) >
      defaultConfig.maxEmojiRatioQ :=
  ⟨by decide, by decide⟩

/-- The function `reFindallPlus` returns one element per maximal run. -/
theorem reFindallGo_length (p : Char → Bool) :
    ∀ (t : Text) (pend : Text),
      (reFindallGo p pend t).length =
        (if pend = [] then 0 else 1) + countRunsGo p (!pend.isEmpty) t := by
  intro t
  induction t with
  | nil =>
    intro pend
    by_cases h : pend = [] <;> simp [reFindallGo, countRunsGo, h]
  | cons c rest ih =>
    intro pend
    by_cases hpd : pend = []
    · subst hpd
      by_cases hp : p c <;>
        simp [reFindallGo, countRunsGo, hp, ih [c], ih []] <;> omega
    · by_cases hp : p c <;>
        simp [reFindallGo, countRunsGo, hp, hpd, ih (c :: pend), ih []] <;>
        omega

theorem reFindallPlus_length (p : Char → Bool) (t : Text) :
    (reFindallPlus p t).length = countRuns p t := by
  simpa [reFindallPlus, countRuns] using reFindallGo_length p t []

/-- C7 amended: the detector fires exactly when the number of maximal runs
of emoji-range characters, over the character count, strictly exceeds
`max_emoji_ratio`; empty text never fails. -/
theorem c7_amended (cfg : Config) (t : Text) :
    hasTooManyEmojis cfg t = true ↔
      (t ≠ [] ∧ Rat.divInt (countRuns isEmojiChar t : Int) (t.length : Int) >
        cfg.maxEmojiRatioQ) := by
  unfold hasTooManyEmojis
  by_cases h : t = []
  · simp [h]
  · have hlen : ¬ t.length = 0 := by simpa using h
    simp [h, hlen, reFindallPlus_length]

/-- C3 counterexample: two records whose raw texts differ but normalize to
the same string are NOT always both kept — when they differ only in
whitespace their fingerprints coincide and the second IS rejected as a
duplicate of the first. -/
theorem c3_counterexample :
    tC3a ≠ tC3b ∧
    normalizeText defaultConfig tC3a = normalizeText defaultConfig tC3b ∧
    (clean defaultConfig ext0 freshCState eC3a "content").2.2.isSome = true ∧
    (clean defaultConfig ext0
      (clean defaultConfig ext0 freshCState eC3a "content").1 eC3b
      "content").2.2 = none ∧
    (clean defaultConfig ext0
      (clean defaultConfig ext0 freshCState eC3a "content").1 eC3b
      "content").1.stats.duplicateFiltered = 1 :=
  ⟨by decide, by decide, by decide, by decide, by decide⟩

/-- C3 amended: every check runs on the raw text and normalization happens
only on success; two raw-distinct records that normalize identically are
both kept provided their whitespace-collapsed fingerprints also differ (as
in the fullwidth/halfwidth example) — records whose raw texts differ only
in whitespace share a fingerprint and are still deduplicated. -/
theorem c3_amended (cfg : Config) (ext : Externals) (st : CState)
    (e1 e2 : Entry) (tf : String) (t1 t2 : Text)
    (h1 : getField e1 tf = some (Value.vStr t1))
    (h2 : getField e2 tf = some (Value.vStr t2))
    (hl1 : checkLength cfg t1 = true) (hl2 : checkLength cfg t2 = true)
    (hi1 : checkImpurities ext cfg t1 = true)
    (hi2 : checkImpurities ext cfg t2 = true)
    (hs1 : checkSentenceStructure cfg t1 = true)
    (hs2 : checkSentenceStructure cfg t2 = true)
    (hj1 : checkJapaneseChars cfg t1 = true)
    (hj2 : checkJapaneseChars cfg t2 = true)
    (hraw : t1 ≠ t2)
    (hnorm : normalizeText cfg t1 = normalizeText cfg t2)
    (hfp : fingerprint t1 ≠ fingerprint t2)
    (hn1 : fingerprint t1 ∉ st.seen) (hn2 : fingerprint t2 ∉ st.seen) :
    (clean cfg ext st e1 tf).2.2 =
      some (setField e1 tf (Value.vStr (normalizeText cfg t1))) ∧
    (clean cfg ext (clean cfg ext st e1 tf).1 e2 tf).2.2 =
      some (setField e2 tf (Value.vStr (normalizeText cfg t2))) := by
  have hc1 := clean_success cfg ext st e1 tf t1 h1 hl1 hi1 hs1 hj1 hn1
  have hn2' : fingerprint t2 ∉ (clean cfg ext st e1 tf).1.seen := by
    rw [hc1]
    simp [hn2, Ne.symm hfp]
  have hc2 := clean_success cfg ext (clean cfg ext st e1 tf).1 e2 tf t2
    h2 hl2 hi2 hs2 hj2 hn2'
  exact ⟨by rw [hc1], by rw [hc2]⟩

/-- C3 witness: the claim's own fullwidth/halfwidth example, both kept. -/
theorem c3_amended_witness :
    (clean defaultConfig ext0 freshCState eC3fw "content").2.2 =
      some (setField eC3fw "content"
        (Value.vStr (normalizeText defaultConfig tC3fw))) ∧
    (clean defaultConfig ext0
        (clean defaultConfig ext0 freshCState eC3fw "content").1 eC3hw
        "content").2.2 =
      some (setField eC3hw "content"
        (Value.vStr (normalizeText defaultConfig tC3hw))) :=
  c3_amended defaultConfig ext0 freshCState eC3fw eC3hw "content" tC3fw tC3hw
    rfl rfl (by decide) (by decide) (by decide) (by decide) (by decide)
    (by decide) (by decide) (by decide) (by decide) (by decide) (by decide)
    (by decide) (by decide)

/-- The record text shared by three C4 stream positions. -/
def tC4 : Text := "abcdefghij".data

def eC4 : Entry := [("content", Value.vStr tC4)]

/-- C4 counterexample: in a stream of three records with one fingerprint,
the pair (second, third) both reach the duplicate check and have identical
collapsed texts, the third is rejected with `Duplicate` — but the second,
the pair's first record, is ALSO rejected as a duplicate, against the
claim's universal "the first is not". -/
theorem c4_counterexample :
    (clean defaultConfig ext0
      (clean defaultConfig ext0 freshCState eC4 "content").1 eC4
      "content").2.2 = none ∧
    (clean defaultConfig ext0
      (clean defaultConfig ext0 freshCState eC4 "content").1 eC4
      "content").1.stats.duplicateFiltered = 1 ∧
    (clean defaultConfig ext0
      (clean defaultConfig ext0
        (clean defaultConfig ext0 freshCState eC4 "content").1 eC4
        "content").1 eC4 "content").2.2 = none ∧
    (clean defaultConfig ext0
      (clean defaultConfig ext0
        (clean defaultConfig ext0 freshCState eC4 "content").1 eC4
        "content").1 eC4 "content").1.stats.duplicateFiltered = 2 :=
  ⟨by decide, by decide, by decide, by decide⟩

/-- C4 amended: for a pair of records reaching the duplicate check with
equal fingerprints, and whose first member's fingerprint is not yet in the
duplicate index (it is the first occurrence), the first is not rejected as
a duplicate and the second — whatever records come in between — is
rejected with `Duplicate`. -/
theorem c4_amended (cfg : Config) (ext : Externals) (st : CState)
    (e1 e2 : Entry) (mid : List Entry) (tf : String) (t1 t2 : Text)
    (h1 : getField e1 tf = some (Value.vStr t1))
    (h2 : getField e2 tf = some (Value.vStr t2))
    (hl1 : checkLength cfg t1 = true) (hl2 : checkLength cfg t2 = true)
    (hfp : fingerprint t2 = fingerprint t1)
    (hnew : fingerprint t1 ∉ st.seen) :
    (clean cfg ext st e1 tf).1.stats.duplicateFiltered =
      st.stats.duplicateFiltered ∧
    (clean cfg ext
        (cleanBatch cfg ext (clean cfg ext st e1 tf).1 mid tf).1 e2
        tf).2.2 = none ∧
    (clean cfg ext
        (cleanBatch cfg ext (clean cfg ext st e1 tf).1 mid tf).1 e2
        tf).1.stats.duplicateFiltered =
      (cleanBatch cfg ext (clean cfg ext st e1 tf).1 mid tf).1.stats.duplicateFiltered
        + 1 := by
  have h := clean_of_new cfg ext st e1 tf t1 h1 hl1 hnew
  have hf1 : fingerprint t1 ∈ (clean cfg ext st e1 tf).1.seen := by
    rw [h.1]
    simp
  have hmem := cleanBatch_seen_mono cfg ext tf mid (clean cfg ext st e1 tf).1
    (fingerprint t1) hf1
  have hd := clean_of_dup cfg ext
    (cleanBatch cfg ext (clean cfg ext st e1 tf).1 mid tf).1 e2 tf t2 h2 hl2
    (by rw [hfp]; exact hmem)
  exact ⟨h.2, by rw [hd], by rw [hd]⟩

/-- C4 witness: two identical records back to back from a fresh stage. -/
theorem c4_amended_witness :
    (clean defaultConfig ext0 freshCState eC4 "content").1.stats.duplicateFiltered =
      freshCState.stats.duplicateFiltered ∧
    (clean defaultConfig ext0
        (cleanBatch defaultConfig ext0
          (clean defaultConfig ext0 freshCState eC4 "content").1 [] "content").1
        eC4 "content").2.2 = none ∧
    (clean defaultConfig ext0
        (cleanBatch defaultConfig ext0
          (clean defaultConfig ext0 freshCState eC4 "content").1 [] "content").1
        eC4 "content").1.stats.duplicateFiltered =
      (cleanBatch defaultConfig ext0
          (clean defaultConfig ext0 freshCState eC4 "content").1 []
          "content").1.stats.duplicateFiltered + 1 :=
  c4_amended defaultConfig ext0 freshCState eC4 eC4 [] "content" tC4 tC4
    rfl rfl (by decide) (by decide) rfl (by decide)

/-- The C9 record texts: the first fails the sentence-structure check, the
second differs only by trailing whitespace, so the fingerprints agree. -/
def tC9a : Text := "abcdefghijk".data

def tC9b : Text := ("abcdefghijk".data ++ [' '])

def eC9a : Entry := [("content", Value.vStr tC9a)]

def eC9b : Entry := [("content", Value.vStr tC9b)]

/-- C9: a record that reaches the duplicate check has its fingerprint
indexed even when a later check rejects it, so a later record with the
same fingerprint is rejected with `Duplicate` although the earlier record
was never emitted. -/
theorem c9_rejected_still_indexed (cfg : Config) (ext : Externals)
    (st : CState) (e1 e2 : Entry) (mid : List Entry) (tf : String)
    (t1 t2 : Text)
    (h1 : getField e1 tf = some (Value.vStr t1))
    (hl1 : checkLength cfg t1 = true)
    (hnew : fingerprint t1 ∉ st.seen)
    (hrej : (clean cfg ext st e1 tf).2.2 = none)
    (h2 : getField e2 tf = some (Value.vStr t2))
    (hl2 : checkLength cfg t2 = true)
    (hfp : fingerprint t2 = fingerprint t1) :
    fingerprint t1 ∈ (clean cfg ext st e1 tf).1.seen ∧
    (clean cfg ext
        (cleanBatch cfg ext (clean cfg ext st e1 tf).1 mid tf).1 e2
        tf).2.2 = none ∧
    (clean cfg ext
        (cleanBatch cfg ext (clean cfg ext st e1 tf).1 mid tf).1 e2
        tf).1.stats.duplicateFiltered =
      (cleanBatch cfg ext (clean cfg ext st e1 tf).1 mid tf).1.stats.duplicateFiltered
        + 1 := by
  have h := clean_of_new cfg ext st e1 tf t1 h1 hl1 hnew
  have hf1 : fingerprint t1 ∈ (clean cfg ext st e1 tf).1.seen := by
    rw [h.1]
    simp
  have hmem := cleanBatch_seen_mono cfg ext tf mid (clean cfg ext st e1 tf).1
    (fingerprint t1) hf1
  have hd := clean_of_dup cfg ext
    (cleanBatch cfg ext (clean cfg ext st e1 tf).1 mid tf).1 e2 tf t2 h2 hl2
    (by rw [hfp]; exact hmem)
  exact ⟨hf1, by rw [hd], by rw [hd]⟩

/-- C9 witness: the first record is itself rejected (under-terminated
sentence structure), the second is nonetheless rejected as its duplicate. -/
theorem c9_witness :
    fingerprint tC9a ∈
      (clean defaultConfig ext0 freshCState eC9a "content").1.seen ∧
    (clean defaultConfig ext0
        (cleanBatch defaultConfig ext0
          (clean defaultConfig ext0 freshCState eC9a "content").1 [] "content").1
        eC9b "content").2.2 = none ∧
    (clean defaultConfig ext0
        (cleanBatch defaultConfig ext0
          (clean defaultConfig ext0 freshCState eC9a "content").1 [] "content").1
        eC9b "content").1.stats.duplicateFiltered =
      (cleanBatch defaultConfig ext0
          (clean defaultConfig ext0 freshCState eC9a "content").1 []
          "content").1.stats.duplicateFiltered + 1 :=
  c9_rejected_still_indexed defaultConfig ext0 freshCState eC9a eC9b []
    "content" tC9a tC9b rfl (by decide) (by decide) (by decide) rfl
    (by decide) (by decide)

/-- C1 amended: stage 1 satisfies the conservation equation on every
stream (`json_decode_error` counted among the reasons); stages 2 and 3
satisfy it on every stream whose lines decode to records with a non-empty
string text — which the stage-1/stage-2 output artifacts they are fed in
the pipeline always are — stage 3 additionally when it runs to completion.
On arbitrary streams stages 2 and 3 count undecodable or text-less lines
in `total_processed` without attributing them to any reason. -/
theorem c1_conservation_amended :
    (∀ (cfg : Config) (ext : Externals) (tf : String) (input : List Line),
      (phase1Run cfg ext tf freshCState input).totalProcessed =
        (phase1Run cfg ext tf freshCState input).totalKept +
        (phase1Run cfg ext tf freshCState input).cstate.stats.rejections) ∧
    (∀ (tf : String) (maxPerp : ℚ) (km : KenlmScorer) (ext : Externals)
        (input : List Line), (∀ l ∈ input, LineAttributable tf l) →
      (phase2Run tf maxPerp km ext input).totalProcessed =
        (phase2Run tf maxPerp km ext input).totalKept +
        (phase2Run tf maxPerp km ext input).totalFiltered) ∧
    (∀ (tf : String) (maxPerp : ℚ) (m : LlmCalc) (input : List Line)
        (r : Ph3Result), (∀ l ∈ input, LineAttributable tf l) →
      phase3Run tf maxPerp m input = Except.ok r →
      r.totalProcessed = r.totalKept + r.totalFiltered) := by
  refine ⟨?_, ?_, ?_⟩
  · intro cfg ext tf input
    have h := phase1Run_balance cfg ext tf input { cstate := freshCState }
    have z1 : ({ cstate := freshCState } : Ph1Result).totalProcessed = 0 := rfl
    have z2 : ({ cstate := freshCState } : Ph1Result).totalKept = 0 := rfl
    have z3 : ({ cstate := freshCState } : Ph1Result).cstate.stats.rejections = 0 :=
      rfl
    rw [z1, z2, z3] at h
    simp only [phase1Run]
    omega
  · intro tf maxPerp km ext input hws
    have h := phase2Run_balance tf maxPerp km ext input hws {}
    have z1 : ({} : Ph2Result).totalProcessed = 0 := rfl
    have z2 : ({} : Ph2Result).totalKept = 0 := rfl
    have z3 : ({} : Ph2Result).totalFiltered = 0 := rfl
    rw [z1, z2, z3] at h
    simp only [phase2Run]
    omega
  · intro tf maxPerp m input r hws hr
    have h := phase3Run_balance tf maxPerp m input hws {} r hr
    have z1 : ({} : Ph3Result).totalProcessed = 0 := rfl
    have z2 : ({} : Ph3Result).totalKept = 0 := rfl
    have z3 : ({} : Ph3Result).totalFiltered = 0 := rfl
    rw [z1, z2, z3] at h
    omega

/-- C1 counterexample: stage 2, fed one undecodable line, reports
`total_processed = 1` but `total_kept + total_excluded = 0`. -/
theorem c1_counterexample :
    (phase2Run "content" (mkRat 100 1) { score := fun _ => none } ext0
        [Line.malformed]).totalProcessed ≠
      (phase2Run "content" (mkRat 100 1) { score := fun _ => none } ext0
          [Line.malformed]).totalKept +
        (phase2Run "content" (mkRat 100 1) { score := fun _ => none } ext0
            [Line.malformed]).totalFiltered := by
  decide

def eC1 : Entry := [("content", Value.vStr ['あ'])]

def llmC1 : LlmCalc := { attempts := fun _ => true, calcPerp := fun _ => some 1 }

/-- C1 witness: the three parts of the amended conservation statement at
concrete streams. -/
theorem c1_witness :
    ((phase1Run defaultConfig ext0 "content" freshCState
        [Line.malformed, Line.record eC1]).totalProcessed =
      (phase1Run defaultConfig ext0 "content" freshCState
          [Line.malformed, Line.record eC1]).totalKept +
        (phase1Run defaultConfig ext0 "content" freshCState
            [Line.malformed, Line.record eC1]).cstate.stats.rejections) ∧
    ((phase2Run "content" (mkRat 100 1) { score := fun _ => none } ext0
        [Line.record eC1]).totalProcessed =
      (phase2Run "content" (mkRat 100 1) { score := fun _ => none } ext0
          [Line.record eC1]).totalKept +
        (phase2Run "content" (mkRat 100 1) { score := fun _ => none } ext0
            [Line.record eC1]).totalFiltered) ∧
    (∃ r, phase3Run "content" (mkRat 100 1) llmC1 [Line.record eC1] =
        Except.ok r ∧
      r.totalProcessed = r.totalKept + r.totalFiltered) := by
  have hattr : ∀ l ∈ [Line.record eC1], LineAttributable "content" l := by
    intro l hl
    simp only [List.mem_singleton] at hl
    subst hl
    exact ⟨['あ'], rfl, by decide⟩
  refine ⟨c1_conservation_amended.1 defaultConfig ext0 "content"
      [Line.malformed, Line.record eC1],
    c1_conservation_amended.2.1 "content" (mkRat 100 1)
      { score := fun _ => none } ext0 [Line.record eC1] hattr,
    ⟨_, rfl, c1_conservation_amended.2.2 "content" (mkRat 100 1) llmC1
      [Line.record eC1] _ hattr rfl⟩⟩

/-- C6: fail-closed scoring.  Stage 2 excludes a record whenever the
statistical scorer raises or the text has zero words; stage 3 excludes a
record whenever the neural scorer produces no perplexity.  In both cases
the output stream and the kept counter are untouched and only the filtered
counter advances. -/
theorem c6_fail_closed :
    (∀ (tf : String) (maxPerp : ℚ) (km : KenlmScorer) (ext : Externals)
        (r : Ph2Result) (e : Entry) (t : Text),
      getField e tf = some (Value.vStr t) → t ≠ [] →
      (km.score t = none ∨ pyWords t = 0) →
      phase2Step tf maxPerp km ext r (Line.record e) =
        { r with totalProcessed := r.totalProcessed + 1,
                 totalFiltered := r.totalFiltered + 1 }) ∧
    (∀ (tf : String) (maxPerp : ℚ) (m : LlmCalc) (r : Ph3Result)
        (e : Entry) (t : Text) (loaded' : Bool),
      getField e tf = some (Value.vStr t) → t ≠ [] →
      calculatePerplexity m r.loaded t = Except.ok (loaded', none) →
      phase3Step tf maxPerp m r (Line.record e) =
        Except.ok { r with loaded := loaded',
                           totalProcessed := r.totalProcessed + 1,
                           totalFiltered := r.totalFiltered + 1 }) := by
  constructor
  · intro tf maxPerp km ext r e t hg hne hfail
    rcases t with _ | ⟨c, cs⟩
    · exact absurd rfl hne
    · simp only [phase2Step, hg]
      rcases hfail with hsc | hw
      · rw [hsc]
      · rcases hs : km.score (c :: cs) with _ | s
        · rfl
        · dsimp only
          rw [hw]
          rfl
  · intro tf maxPerp m r e t loaded' hg hne hcalc
    rcases t with _ | ⟨c, cs⟩
    · exact absurd rfl hne
    · simp only [phase3Step, isHighQuality, hg, hcalc]
      rfl

def eC6 : Entry := [("content", Value.vStr [' '])]

def kmC6 : KenlmScorer := { score := fun _ => some 5 }

def llmC6 : LlmCalc := { attempts := fun _ => true, calcPerp := fun _ => none }

/-- C6 witness: a whitespace-only text has zero words (stage 2), and a
scorer whose perplexity computation fails yields no score (stage 3). -/
theorem c6_witness :
    phase2Step "content" (mkRat 100 1) kmC6 ext0 {} (Line.record eC6) =
      { totalProcessed := 1, totalKept := 0, totalFiltered := 1,
        output := [] } ∧
    phase3Step "content" (mkRat 100 1) llmC6 {} (Line.record eC6) =
      Except.ok { loaded := false, totalProcessed := 1, totalKept := 0,
                  totalFiltered := 1, output := [] } :=
  ⟨c6_fail_closed.1 "content" (mkRat 100 1) kmC6 ext0 {} eC6 [' ']
      rfl (by decide) (Or.inr (by decide)),
   c6_fail_closed.2 "content" (mkRat 100 1) llmC6 {} eC6 [' '] false
      rfl (by decide) rfl⟩

/-- C8: with no statistical scorer and no neural scorer configured, stages
2 and 3 are pass-through: the final output equals stage 1's output exactly
and both stage reports are the empty mapping. -/
theorem c8_no_scorers_passthrough (p : Pipeline) (ext : Externals)
    (st0 : CState) (input : List Line)
    (hk : p.kenlmModel = none) (hl : p.llmCalculator = none) :
    processFile p ext st0 input =
      Except.ok ((phase1Run p.cfg ext p.textField st0 input).output,
        { phase1Stats := (phase1Run p.cfg ext p.textField st0 input).cstate.stats
          phase1Report :=
            { totalProcessed :=
                (phase1Run p.cfg ext p.textField st0 input).totalProcessed
              totalKept := (phase1Run p.cfg ext p.textField st0 input).totalKept
              totalExcluded :=
                (phase1Run p.cfg ext p.textField st0 input).totalProcessed -
                  (phase1Run p.cfg ext p.textField st0 input).totalKept }
          phase2Report := none
          phase3Report := none }) := by
  unfold processFile
  rw [hk, hl]
  cases p.useLlm <;> rfl

/-- C8 witness: the default pipeline (no scorers) on a two-line stream. -/
theorem c8_witness :
    processFile {} ext0 freshCState [Line.malformed, Line.record eC3a] =
      Except.ok
        ((phase1Run defaultConfig ext0 "content" freshCState
            [Line.malformed, Line.record eC3a]).output,
          { phase1Stats :=
              (phase1Run defaultConfig ext0 "content" freshCState
                  [Line.malformed, Line.record eC3a]).cstate.stats
            phase1Report :=
              { totalProcessed :=
                  (phase1Run defaultConfig ext0 "content" freshCState
                      [Line.malformed, Line.record eC3a]).totalProcessed
                totalKept :=
                  (phase1Run defaultConfig ext0 "content" freshCState
                      [Line.malformed, Line.record eC3a]).totalKept
                totalExcluded :=
                  (phase1Run defaultConfig ext0 "content" freshCState
                      [Line.malformed, Line.record eC3a]).totalProcessed -
                    (phase1Run defaultConfig ext0 "content" freshCState
                        [Line.malformed, Line.record eC3a]).totalKept }
            phase2Report := none
            phase3Report := none }) :=
  c8_no_scorers_passthrough {} ext0 freshCState
    [Line.malformed, Line.record eC3a] rfl rfl

/-- A neural scorer whose model load fails on every attempt. -/
def llmFailing : LlmCalc := { attempts := fun _ => false, calcPerp := fun _ => none }

def pC5 : Pipeline := { useLlm := true, llmCalculator := some llmFailing }

/-- A record that survives stage 1, so that stage 3 must score it and
therefore trigger the lazy model load. -/
def tC5 : Text := "Ｂは今日も勉強をします。".data

def eC5 : Entry := [("content", Value.vStr tC5)]

/-- C5: the claim says a load failure after all 3 attempts aborts only
stage 3, with the orchestrator falling back to pass-through so the run
still completes.  The code does retry 3 times, but the lazy load runs
outside `calculate_perplexity`'s `try` block and `_phase3_llm_filtering`
has no handler, so the `RuntimeError` propagates out of `process_file` and
the whole run aborts with no final output (the construction-time fallback
in `__init__` does not cover this path). -/
theorem c5_load_failure_aborts_run :
    processFile pC5 ext0 freshCState [Line.record eC5] =
      Except.error RunError.modelLoadFailure ∧
    loadModelOk llmFailing = false ∧
    (phase1Run pC5.cfg ext0 pC5.textField freshCState
        [Line.record eC5]).totalKept = 1 :=
  ⟨rfl, rfl, by decide⟩
